import Mathlib

/-!
Shallow embedding of the dreampower utility module `src/utils.py`.

The module offers a downloader with a console progress bar, a zip
extractor with the same bar, and a few image-validation helpers that
terminate the process on failure.  The embedding below mirrors each
Python function over explicit inputs:

* network interaction is an `Except Unit Response` argument: an `error`
  value stands for a request that raised inside the HTTP client
  before any response arrived, an `ok` value carries the status code,
  the optional content-length header and the streamed chunks;
* side effects (file writes, console prints, archive extraction) are
  recorded as event traces, so theorems can speak about the exact
  sequence of observable actions;
* a Python exception escaping the function is an explicit error value;
  a call to the process-terminating exit with code `n` inside the image
  validators is `Except.error n`.

Machine integers do not overflow here: Python integers are unbounded
and every quantity involved is a nonnegative count, so `Nat` with
truncated subtraction (matching Python string repetition, which treats
a negative count as zero) and floor division (matching truncation of a
nonnegative true division) is the faithful carrier.
-/

namespace DreamPower

/-- A chunk of raw bytes, each byte a value below 256 in the real
program; nothing below depends on the bound. -/
abbrev Bytes := List Nat

/-- Python exceptions that can escape the downloader or the extractor. -/
inductive PyErr
| requestException
| zeroDivision
deriving DecidableEq

/-- The text printed for one progress update: an opening bracket,
`done` equal signs, `50 - done` spaces (Python's string repetition
yields the empty string for a negative count, exactly like truncated
subtraction on `Nat`), a closing bracket, then the carriage return that
the print call appends instead of a newline. -/
def progressBar (done : Nat) : String :=
  "[" ++ String.mk (List.replicate done '=') ++
    String.mk (List.replicate (50 - done) ' ') ++ "]" ++ "\r"

/-- The text printed once an operation's loop is over: eighty spaces
followed by a carriage return, clearing the bar in place. -/
def clearLine : String := String.mk (List.replicate 80 ' ') ++ "\r"

/-- An HTTP response as the downloader consumes it: the status code
(read by nobody in the source, recorded here so theorems can mention
it), the parsed optional content-length header, and the body as the
chunk sequence the streaming iterator yields. -/
structure Response where
  status : Nat
  contentLength : Option Nat
  chunks : List Bytes
deriving DecidableEq

/-- The whole body, as the non-streaming accessor of the HTTP client
returns it: the concatenation of every streamed chunk in order. -/
def Response.content (r : Response) : Bytes := r.chunks.flatten

/-- Equality of `Except` values is decidable when it is on both
components; used so concrete traces can be compared by evaluation. -/
instance {ε α : Type} [DecidableEq ε] [DecidableEq α] : DecidableEq (Except ε α) :=
  fun a b =>
    match a, b with
    | Except.ok x, Except.ok y =>
      if h : x = y then isTrue (congrArg Except.ok h)
      else isFalse fun hc => h (Except.ok.inj hc)
    | Except.error x, Except.error y =>
      if h : x = y then isTrue (congrArg Except.error h)
      else isFalse fun hc => h (Except.error.inj hc)
    | Except.ok _, Except.error _ => isFalse fun hc => Except.noConfusion hc
    | Except.error _, Except.ok _ => isFalse fun hc => Except.noConfusion hc

/-- One observable action of `dll_file`: a binary write to the
destination file, or a console print. -/
inductive FEvent
| write (b : Bytes)
| print (s : String)
deriving DecidableEq

/-- The bytes the destination file holds after a trace of events: the
concatenation of all writes in order. -/
def fileContent : List FEvent → Bytes
  | [] => []
  | FEvent.write b :: rest => b ++ fileContent rest
  | FEvent.print _ :: rest => fileContent rest

/-- The console lines a trace of download events printed, in order. -/
def printed : List FEvent → List String
  | [] => []
  | FEvent.print s :: rest => s :: printed rest
  | FEvent.write _ :: rest => printed rest

/-- The chunk loop of `dll_file` (the branch taken when a
content-length header is present).  Per chunk the Python code adds the
chunk length to the running counter, writes the chunk, computes
`done` as the truncated division `50 * dl / total_length` — raising
ZeroDivisionError when the advertised total is zero — and prints the
bar.  Returns the events together with the escaping exception, if
any. -/
def dllLoop (total : Nat) : List Bytes → Nat → List FEvent × Option PyErr
  | [], _ => ([], none)
  | data :: rest, dl =>
    let dl2 := dl + data.length
    if total = 0 then ([FEvent.write data], some PyErr.zeroDivision)
    else
      let r := dllLoop total rest dl2
      (FEvent.write data :: FEvent.print (progressBar (50 * dl2 / total)) :: r.1, r.2)

/-- Outcome of one `dll_file` call: the event trace on the destination
file and the console, and either the returned path or the escaping
exception. -/
structure FetchTrace where
  events : List FEvent
  result : Except PyErr (List Char)
deriving DecidableEq

/-- `dll_file` from `src/utils.py`.  A failing request (`net` is an
`error`) propagates the client's exception before anything is written.
Otherwise, with no content-length header the whole body is written in
one call and no progress is printed; with a header the chunk loop runs
and, when it finishes without an exception, the clearing line is
printed and the destination path is returned.  The source never reads
the response status. -/
def dll_file (net : Except Unit Response) (file_path : List Char) : FetchTrace :=
  match net with
  | Except.error _ => { events := [], result := Except.error PyErr.requestException }
  | Except.ok response =>
    match response.contentLength with
    | none =>
      { events := [FEvent.write response.content], result := Except.ok file_path }
    | some total_length =>
      let r := dllLoop total_length response.chunks 0
      match r.2 with
      | some e => { events := r.1, result := Except.error e }
      | none =>
        { events := r.1 ++ [FEvent.print clearLine], result := Except.ok file_path }

/-- One archive member as the zip directory lists it: its path inside
the archive and its uncompressed size. -/
structure ZipEntry where
  filename : List Char
  file_size : Nat
deriving DecidableEq

/-- One observable action of `unzip`: a console print, or the
extraction of one member to a target path. -/
inductive ZEvent
| print (s : String)
| extract (target : List Char)
deriving DecidableEq

/-- The console lines a trace of extraction events printed, in
order. -/
def printedZ : List ZEvent → List String
  | [] => []
  | ZEvent.print s :: rest => s :: printedZ rest
  | ZEvent.extract _ :: rest => printedZ rest

/-- The target paths a trace of extraction events wrote, in order. -/
def extractedTo : List ZEvent → List (List Char)
  | [] => []
  | ZEvent.print _ :: rest => extractedTo rest
  | ZEvent.extract t :: rest => t :: extractedTo rest

/-- Joining the destination directory with a member's relative path,
as extraction places the member under the destination. -/
def joinPath (dir name : List Char) : List Char := dir ++ '/' :: name

/-- The member loop of `unzip`.  Per member the Python code first
computes `done` from the bytes of the members already extracted —
raising ZeroDivisionError when the summed size is zero — then prints
the bar, then extracts the member, then adds the member's size to the
counter. -/
def unzipLoop (total : Nat) (extract_path : List Char) :
    List ZipEntry → Nat → List ZEvent × Option PyErr
  | [], _ => ([], none)
  | e :: rest, extracted_size =>
    if total = 0 then ([], some PyErr.zeroDivision)
    else
      let r := unzipLoop total extract_path rest (extracted_size + e.file_size)
      (ZEvent.print (progressBar (50 * extracted_size / total)) ::
        ZEvent.extract (joinPath extract_path e.filename) :: r.1, r.2)

/-- Outcome of one `unzip` call: whether the destination directory was
created, the event trace, and the escaping exception if any. -/
structure UnzipTrace where
  madeDir : Bool
  events : List ZEvent
  error : Option PyErr
deriving DecidableEq

/-- `unzip` from `src/utils.py`.  The destination directory is created
when absent; the advertised total is the sum of the member sizes; the
member loop runs and, when it finishes without an exception, the
clearing line is printed. -/
def unzip (entries : List ZipEntry) (extract_path : List Char) (pathExists : Bool) :
    UnzipTrace :=
  let uncompress_size := (entries.map ZipEntry.file_size).sum
  let r := unzipLoop uncompress_size extract_path entries 0
  match r.2 with
  | some e => { madeDir := !pathExists, events := r.1, error := some e }
  | none =>
    { madeDir := !pathExists, events := r.1 ++ [ZEvent.print clearLine], error := none }

/-- Helper for the extension splitter, walking the reversed path.
`acc` holds the characters already seen after the final dot, in
forward order.  Hitting the directory separator before any dot, or
running out of characters, yields the empty extension; hitting a dot
yields a nonempty extension exactly when the remaining basename
characters include one that is not a dot — the rule the standard
splitter uses so that a leading-dot filename has no extension. -/
def splitextExtRevAux (acc : List Char) : List Char → List Char
  | [] => []
  | c :: rest =>
    if c = '/' then []
    else if c = '.' then
      (if (rest.takeWhile fun d => d != '/').any (fun d => d != '.') then '.' :: acc
       else [])
    else splitextExtRevAux (c :: acc) rest

/-- The extension part of a path as the standard path splitter
computes it: the suffix from the last dot of the final path component,
dot included, or empty when that component has no usable dot. -/
def splitextExt (path : List Char) : List Char :=
  splitextExtRevAux [] path.reverse

/-- The shape of a decoded pixel array: height, width, channels. -/
abbrev Shape := Nat × Nat × Nat

/-- What the image decoders yield for a given path: the shape of the
color-decoded image when decoding succeeds (`none` when the bytes are
not a valid image), and the shape of the first frame the animated-image
reader returns for the same path. -/
structure ImageData where
  decodeShape : Option Shape
  gifFirstFrame : Shape
deriving DecidableEq

/-- Outcome of a validator call: the error lines it logged and either
its value or the process-exit code it terminated with. -/
structure ValidatorOut (α : Type) where
  logs : List (List Char)
  result : Except Nat α
deriving DecidableEq

/-- `read_image` from `src/utils.py`: decode the file; when the
decoder yields nothing, log the invalid-image message and exit the
process with status 1; otherwise return the image (tracked here by its
shape, which is all the callers in the claims inspect). -/
def read_image (path : List Char) (img : ImageData) : ValidatorOut Shape :=
  match img.decodeShape with
  | none =>
    { logs := [path ++ (" file is not valid image".data)], result := Except.error 1 }
  | some s => { logs := [], result := Except.ok s }

/-- Slicing an array to its first three channels, as the validator
does on an animated image's first frame: the channel count becomes the
minimum of the original count and three. -/
def sliceChannels : Shape → Shape
  | (h, w, c) => (h, w, min c 3)

/-- Rendering of a shape triple for the log message. -/
def shapeRepr (s : Shape) : List Char :=
  ("(" ++ toString s.1 ++ ", " ++ toString s.2.1 ++ ", " ++ toString s.2.2 ++ ")").data

/-- The tail of `check_shape`: compare the obtained shape with the
expected one; on mismatch log the two error lines and exit the process
with status 1. -/
def checkAgainst (imgShape shape : Shape) : ValidatorOut Unit :=
  if imgShape ≠ shape then
    { logs := [("Image is not 512 x 512, got shape: ".data) ++ shapeRepr imgShape,
        "You should use one of the rescale options".data],
      result := Except.error 1 }
  else { logs := [], result := Except.ok () }

/-- `check_shape` from `src/utils.py`: for a path whose extension is
not the animated-image extension, decode the whole image through
`read_image` (whose process exit propagates); for the animated
extension, take the first frame of the multi-frame reader and drop any
channel beyond the third.  Either way, compare against the expected
shape and exit with status 1 on mismatch. -/
def check_shape (path : List Char) (img : ImageData) (shape : Shape) : ValidatorOut Unit :=
  if splitextExt path ≠ (".gif".data) then
    let r := read_image path img
    match r.result with
    | Except.error c => { logs := r.logs, result := Except.error c }
    | Except.ok imgShape => checkAgainst imgShape shape
  else
    checkAgainst (sliceChannels img.gifFirstFrame) shape

/-- The extension allow-list of `write_image`, verbatim from the
source: every element carries a leading dot except the tenth, which is
the bare three letters of the portable pixmap extension. -/
def cv2_supported_extension : List (List Char) :=
  [".bmp".data, ".dib".data, ".jpeg".data, ".jpg".data, ".jpe".data,
    ".jp2".data, ".png".data, ".pbm".data, ".pgm".data, "ppm".data,
    ".sr".data, ".ras".data, ".tiff".data, ".tif".data]

/-- `write_image` from `src/utils.py`: when the path's extension is
not in the allow-list, log the invalid-extension message and exit the
process with status 1; otherwise write the file and, when the written
file fails the validity re-check (an oracle here), log the corruption
message and exit with status 1. -/
def write_image (path : List Char) (writtenValid : Bool) : ValidatorOut Unit :=
  if splitextExt path ∉ cv2_supported_extension then
    { logs := [path ++ (" invalid extension format.".data)], result := Except.error 1 }
  else if !writtenValid then
    { logs := [("Something gone wrong writing ".data) ++ path ++
        (" image file. The final result is not a valid image file.".data)],
      result := Except.error 1 }
  else { logs := [], result := Except.ok () }

/-- Statement-side helper: the running byte counter of the download
loop, sampled after each chunk — the values whose scaled truncated
quotients the loop prints. -/
def prefixTotals (dl : Nat) : List Bytes → List Nat
  | [] => []
  | c :: rest => (dl + c.length) :: prefixTotals (dl + c.length) rest

/-- Statement-side helper: the extracted-bytes counter of the
extraction loop, sampled before each member — the values whose scaled
truncated quotients the loop prints. -/
def runningSizes (acc : Nat) : List ZipEntry → List Nat
  | [] => []
  | e :: rest => acc :: runningSizes (acc + e.file_size) rest

/-- Follows the spec's words, for comparison with the printed output:
a fixed-width bar of an opening bracket, `done` equal signs, `50 -
done` spaces and a closing bracket, terminated by a carriage return
and no newline. -/
def specProgressLine (done : Nat) : String :=
  "[" ++ String.mk (List.replicate done '=') ++
    String.mk (List.replicate (50 - done) ' ') ++ "]" ++ "\r"

/-- Follows the spec's words: eighty spaces and a carriage return,
clearing the progress line. -/
def specClearLine : String := String.mk (List.replicate 80 ' ') ++ "\r"

/-- A reachable source answering a non-success status 404 with a
three-byte error body; used by concrete counterexamples. -/
def resp404 : Response :=
  { status := 404, contentLength := some 3, chunks := [[104, 105, 33]] }

/-- A reachable source answering a non-success status 503 with a
two-byte body. -/
def resp503 : Response :=
  { status := 503, contentLength := some 2, chunks := [[0, 1]] }

/-- A successful response that advertises no content length. -/
def respNoLength : Response :=
  { status := 200, contentLength := none, chunks := [[1, 2, 3]] }

/-- A successful response of six announced bytes in three chunks. -/
def respSixBytes : Response :=
  { status := 200, contentLength := some 6, chunks := [[1, 2], [3], [4, 5, 6]] }

/-- A successful response of ten announced bytes in two five-byte
chunks — the spec's example download. -/
def respTenBytes : Response :=
  { status := 200, contentLength := some 10, chunks := [[1, 1, 1, 1, 1], [2, 2, 2, 2, 2]] }

/-- Another ten-byte two-chunk response, with different bytes. -/
def respTenBytes2 : Response :=
  { status := 200, contentLength := some 10, chunks := [[7, 7, 7, 7, 7], [8, 8, 8, 8, 8]] }

/-!
### Structural lemmas about the two loops
-/

/-- The printed bar and the line the spec describes are the same
string. -/
theorem progressBar_eq_spec : progressBar = specProgressLine := rfl

/-- The clearing print and the line the spec describes are the same
string. -/
theorem clearLine_eq_spec : clearLine = specClearLine := rfl

/-- File bytes distribute over concatenated event traces. -/
theorem fileContent_append (l1 l2 : List FEvent) :
    fileContent (l1 ++ l2) = fileContent l1 ++ fileContent l2 := by
  induction l1 with
  | nil => rfl
  | cons e rest ih => cases e <;> simp [fileContent, ih, List.append_assoc]

/-- Printed lines distribute over concatenated download traces. -/
theorem printed_append (l1 l2 : List FEvent) :
    printed (l1 ++ l2) = printed l1 ++ printed l2 := by
  induction l1 with
  | nil => rfl
  | cons e rest ih => cases e <;> simp [printed, ih]

/-- Printed lines distribute over concatenated extraction traces. -/
theorem printedZ_append (l1 l2 : List ZEvent) :
    printedZ (l1 ++ l2) = printedZ l1 ++ printedZ l2 := by
  induction l1 with
  | nil => rfl
  | cons e rest ih => cases e <;> simp [printedZ, ih]

/-- With a nonzero advertised total the chunk loop never raises. -/
theorem dllLoop_err {total : Nat} (h : total ≠ 0) :
    ∀ (chunks : List Bytes) (dl : Nat), (dllLoop total chunks dl).2 = none := by
  intro chunks
  induction chunks with
  | nil => intro dl; rfl
  | cons c rest ih =>
    intro dl
    simp only [dllLoop, if_neg h]
    exact ih (dl + c.length)

/-- With a nonzero advertised total the chunk loop writes exactly the
concatenation of the chunks, in order. -/
theorem dllLoop_content {total : Nat} (h : total ≠ 0) :
    ∀ (chunks : List Bytes) (dl : Nat),
      fileContent (dllLoop total chunks dl).1 = chunks.flatten := by
  intro chunks
  induction chunks with
  | nil => intro dl; rfl
  | cons c rest ih =>
    intro dl
    simp only [dllLoop, if_neg h, fileContent, List.flatten_cons]
    rw [ih (dl + c.length)]

/-- With a nonzero advertised total the chunk loop prints one bar per
chunk, scaled from the running byte counter sampled after that
chunk. -/
theorem dllLoop_printed {total : Nat} (h : total ≠ 0) :
    ∀ (chunks : List Bytes) (dl : Nat),
      printed (dllLoop total chunks dl).1 =
        (prefixTotals dl chunks).map fun s => progressBar (50 * s / total) := by
  intro chunks
  induction chunks with
  | nil => intro dl; rfl
  | cons c rest ih =>
    intro dl
    simp only [dllLoop, if_neg h, printed, prefixTotals, List.map_cons]
    rw [ih (dl + c.length)]

/-- With a nonzero total the member loop raises nothing and produces,
per member in order, one bar print scaled from the bytes of the
members before it, then one extraction of that member. -/
theorem unzipLoop_spec {total : Nat} (h : total ≠ 0) (p : List Char) :
    ∀ (entries : List ZipEntry) (acc : Nat),
      unzipLoop total p entries acc =
        (((entries.zip (runningSizes acc entries)).map fun es =>
            [ZEvent.print (progressBar (50 * es.2 / total)),
              ZEvent.extract (joinPath p es.1.filename)]).flatten, none) := by
  intro entries
  induction entries with
  | nil => intro acc; rfl
  | cons e rest ih =>
    intro acc
    simp only [unzipLoop, if_neg h, runningSizes, List.zip_cons_cons, List.map_cons,
      List.flatten_cons, ih (acc + e.file_size), List.cons_append, List.nil_append]

/-- With a nonzero total the member loop never raises. -/
theorem unzipLoop_err {total : Nat} (h : total ≠ 0) (p : List Char) :
    ∀ (entries : List ZipEntry) (acc : Nat), (unzipLoop total p entries acc).2 = none := by
  intro entries
  induction entries with
  | nil => intro acc; rfl
  | cons e rest ih =>
    intro acc
    simp only [unzipLoop, if_neg h]
    exact ih (acc + e.file_size)

/-- With a nonzero total the member loop prints one bar per member,
scaled from the bytes of the members before it. -/
theorem unzipLoop_printed {total : Nat} (h : total ≠ 0) (p : List Char) :
    ∀ (entries : List ZipEntry) (acc : Nat),
      printedZ (unzipLoop total p entries acc).1 =
        (runningSizes acc entries).map fun s => progressBar (50 * s / total) := by
  intro entries
  induction entries with
  | nil => intro acc; rfl
  | cons e rest ih =>
    intro acc
    simp only [unzipLoop, if_neg h, printedZ, runningSizes, List.map_cons]
    rw [ih (acc + e.file_size)]

/-- The running counter of the member loop, written with prefix
sums over the original member list. -/
theorem runningSizes_eq :
    ∀ (l : List ZipEntry) (acc : Nat),
      runningSizes acc l =
        (List.range l.length).map fun i => acc + ((l.take i).map ZipEntry.file_size).sum := by
  intro l
  induction l with
  | nil => intro acc; rfl
  | cons e rest ih =>
    intro acc
    rw [runningSizes, ih (acc + e.file_size)]
    rw [List.length_cons, List.range_succ_eq_map, List.map_cons, List.map_map]
    refine congrArg₂ List.cons (by simp) ?_
    refine List.map_congr_left ?_
    intro i _
    simp [List.take_succ_cons, Nat.add_assoc]

/-- The head of the running download counter is at least its starting
value. -/
theorem prefixTotals_head_le :
    ∀ (chunks : List Bytes) (dl x : Nat), x ∈ (prefixTotals dl chunks).head? → dl ≤ x := by
  intro chunks
  cases chunks with
  | nil => intro dl x hx; simp [prefixTotals] at hx
  | cons c rest =>
    intro dl x hx
    simp [prefixTotals] at hx
    omega

/-- The running download counter never decreases. -/
theorem prefixTotals_chain' :
    ∀ (chunks : List Bytes) (dl : Nat), List.Chain' (· ≤ ·) (prefixTotals dl chunks) := by
  intro chunks
  induction chunks with
  | nil => intro dl; simp [prefixTotals]
  | cons c rest ih =>
    intro dl
    rw [prefixTotals, List.chain'_cons']
    exact ⟨fun y hy => prefixTotals_head_le rest (dl + c.length) y hy, ih (dl + c.length)⟩

/-- The running download counter is bounded by its start plus the
total body length. -/
theorem prefixTotals_le :
    ∀ (chunks : List Bytes) (dl s : Nat),
      s ∈ prefixTotals dl chunks → s ≤ dl + (chunks.map List.length).sum := by
  intro chunks
  induction chunks with
  | nil => intro dl s hs; simp [prefixTotals] at hs
  | cons c rest ih =>
    intro dl s hs
    rw [prefixTotals] at hs
    rcases List.mem_cons.mp hs with rfl | hs
    · simp only [List.map_cons, List.sum_cons]
      omega
    · have h2 := ih (dl + c.length) s hs
      simp only [List.map_cons, List.sum_cons] at h2 ⊢
      omega

/-- Stepping the extension splitter past a character that is neither
dot nor separator. -/
theorem splitextExtRevAux_cons_ne (acc : List Char) (c : Char) (rest : List Char)
    (h1 : c ≠ '/') (h2 : c ≠ '.') :
    splitextExtRevAux acc (c :: rest) = splitextExtRevAux (c :: acc) rest := by
  simp only [splitextExtRevAux, if_neg h1, if_neg h2]

/-- Stepping the extension splitter into the final dot. -/
theorem splitextExtRevAux_cons_dot (acc rest : List Char) :
    splitextExtRevAux acc ('.' :: rest) =
      (if (rest.takeWhile fun d => d != '/').any (fun d => d != '.') then '.' :: acc
        else []) := by
  simp [splitextExtRevAux]

/-- Whatever precedes it, a path ending in the portable pixmap
extension splits to either that dotted extension or, when the final
component is all dots, to the empty extension. -/
theorem splitextExt_append_ppm (pre : List Char) :
    splitextExt (pre ++ (".ppm".data)) = (".ppm".data) ∨
      splitextExt (pre ++ (".ppm".data)) = [] := by
  have hrev : (pre ++ (".ppm".data)).reverse = 'm' :: 'p' :: 'p' :: '.' :: pre.reverse := by
    rw [List.reverse_append, show (".ppm".data).reverse = ['m', 'p', 'p', '.'] from by decide]
    rfl
  unfold splitextExt
  rw [hrev]
  rw [splitextExtRevAux_cons_ne _ _ _ (by decide) (by decide)]
  rw [splitextExtRevAux_cons_ne _ _ _ (by decide) (by decide)]
  rw [splitextExtRevAux_cons_ne _ _ _ (by decide) (by decide)]
  rw [splitextExtRevAux_cons_dot]
  by_cases hc : ((pre.reverse.takeWhile fun d => d != '/').any fun d => d != '.') = true
  · left; rw [if_pos hc]
  · right; rw [if_neg hc]

/-- The shape comparison exits with status 1 exactly on mismatch. -/
theorem checkAgainst_result (a b : Shape) :
    (checkAgainst a b).result = (if a = b then Except.ok () else Except.error 1) := by
  unfold checkAgainst
  by_cases h : a = b
  · rw [if_neg (not_not_intro h), if_pos h]
  · rw [if_pos h, if_neg h]

/-!
### The claims
-/

/-- Claim C1, counterexample.  The claim says a source returning a
non-success response status makes `dll_file` fail with a transfer
error rather than complete normally.  The source never inspects the
status: on a reachable source answering status 404 with a three-byte
error body, `dll_file` completes normally, returns the destination
path, and writes the error body to the file. -/
theorem C1_counterexample :
    resp404.status = 404 ∧
      (dll_file (Except.ok resp404) ("m.zip".data)).result = Except.ok ("m.zip".data) ∧
      fileContent (dll_file (Except.ok resp404) ("m.zip".data)).events = [104, 105, 33] :=
  ⟨rfl, rfl, rfl⟩

/-- Claim C1, amended.  An unreachable source (the HTTP request itself
raises) makes `dll_file` fail with the client's exception surfaced to
the caller, before anything is written; but a reachable source is
never checked for a non-success status: for every delivered response —
whatever its status — whose framing is consistent (an advertised
length of zero comes with an empty body), `dll_file` completes
normally and returns the destination path. -/
theorem C1_amended (p : List Char) :
    ((dll_file (Except.error ()) p).result = Except.error PyErr.requestException ∧
      (dll_file (Except.error ()) p).events = []) ∧
    ∀ resp : Response, (resp.contentLength = some 0 → resp.chunks = []) →
      (dll_file (Except.ok resp) p).result = Except.ok p := by
  refine ⟨⟨rfl, rfl⟩, ?_⟩
  intro resp h0
  obtain ⟨st, cl, chunks⟩ := resp
  cases cl with
  | none => rfl
  | some T =>
    rcases Nat.eq_zero_or_pos T with rfl | hT
    · have hch : chunks = [] := h0 rfl
      subst hch
      rfl
    · have he := dllLoop_err (Nat.pos_iff_ne_zero.mp hT) chunks 0
      simp only [dll_file, he]

/-- Witness for the amended claim C1 at concrete inputs: a raising
request surfaces the exception, and a status-503 response with a
two-byte body completes normally. -/
theorem C1_amended_witness :
    ((dll_file (Except.error ()) ("m.zip".data)).result = Except.error PyErr.requestException ∧
      (dll_file (Except.error ()) ("m.zip".data)).events = []) ∧
    (dll_file (Except.ok resp503) ("m.zip".data)).result = Except.ok ("m.zip".data) :=
  ⟨(C1_amended ("m.zip".data)).1, (C1_amended ("m.zip".data)).2 resp503 (by decide)⟩

/-- Claim C2.  For every delivered response with consistent framing
(an advertised length of zero comes with an empty body, as the
streaming client guarantees), `dll_file` leaves in the destination
file exactly the concatenation of the streamed chunks in stream order
— through the chunk loop when a content-length header is present, and
through the single whole-body write when it is absent — and completes
normally. -/
theorem C2_fetch_concatenation (resp : Response) (p : List Char)
    (h0 : resp.contentLength = some 0 → resp.chunks = []) :
    fileContent (dll_file (Except.ok resp) p).events = resp.chunks.flatten ∧
      (dll_file (Except.ok resp) p).result = Except.ok p := by
  obtain ⟨st, cl, chunks⟩ := resp
  cases cl with
  | none =>
    exact ⟨by simp [dll_file, fileContent, Response.content], rfl⟩
  | some T =>
    rcases Nat.eq_zero_or_pos T with rfl | hT
    · have hch : chunks = [] := h0 rfl
      subst hch
      exact ⟨rfl, rfl⟩
    · have hne := Nat.pos_iff_ne_zero.mp hT
      have he := dllLoop_err hne chunks 0
      constructor
      · simp only [dll_file, he]
        rw [fileContent_append, dllLoop_content hne chunks 0]
        simp [fileContent]
      · simp only [dll_file, he]

/-- Witness for claim C2: a three-chunk body of six announced bytes
ends up concatenated in order. -/
theorem C2_fetch_concatenation_witness :
    fileContent (dll_file (Except.ok respSixBytes) ("f.bin".data)).events =
        respSixBytes.chunks.flatten ∧
      (dll_file (Except.ok respSixBytes) ("f.bin".data)).result = Except.ok ("f.bin".data) :=
  C2_fetch_concatenation respSixBytes ("f.bin".data) (by decide)

/-- Claim C3.  On an archive with zero entries `unzip` completes
without raising — in particular without the division by zero, which
sits inside the per-member loop that never runs — creates the absent
destination directory, extracts nothing, and prints just the clearing
line. -/
theorem C3_empty_archive (p : List Char) :
    unzip [] p false =
      { madeDir := true, events := [ZEvent.print clearLine], error := none } := rfl

/-- Claim C4, counterexample.  The claim quantifies over every
well-formed archive, but on the well-formed archive holding one
zero-byte member the extraction loop divides by the zero total on its
first iteration: no progress value is emitted and no entry is
extracted. -/
theorem C4_counterexample :
    (unzip [⟨"empty.txt".data, 0⟩] ("dest".data) false).error = some PyErr.zeroDivision ∧
      (unzip [⟨"empty.txt".data, 0⟩] ("dest".data) false).events = [] :=
  ⟨rfl, rfl⟩

/-- Claim C4, amended with the positivity condition the counterexample
forces.  For every archive whose total uncompressed size is positive,
`unzip` completes without raising and its event trace is, per entry in
archive-native listing order: one progress bar computed only from the
sizes of the entries already fully extracted (the running counter —
shown equal to the prefix sums that exclude the current entry), then
the extraction of that entry to its relative path joined under the
destination directory; the trace ends with the clearing line. -/
theorem C4_amended (entries : List ZipEntry) (p : List Char) (pathExists : Bool)
    (h : 0 < (entries.map ZipEntry.file_size).sum) :
    (unzip entries p pathExists).error = none ∧
    (unzip entries p pathExists).events =
      (((entries.zip (runningSizes 0 entries)).map fun es =>
          [ZEvent.print (progressBar (50 * es.2 / (entries.map ZipEntry.file_size).sum)),
            ZEvent.extract (joinPath p es.1.filename)]).flatten) ++ [ZEvent.print clearLine] ∧
    runningSizes 0 entries =
      (List.range entries.length).map fun i => ((entries.take i).map ZipEntry.file_size).sum := by
  have hne := Nat.pos_iff_ne_zero.mp h
  have hspec := unzipLoop_spec hne p entries 0
  refine ⟨?_, ?_, ?_⟩
  · simp only [unzip, hspec]
  · simp only [unzip, hspec]
  · rw [runningSizes_eq]
    simp

/-- Witness for the amended claim C4 on the two-entry archive of the
spec's scenario: both members extracted in order under the
destination, the second bar showing the three bytes of the first
member only. -/
theorem C4_amended_witness :
    (unzip [⟨"a.txt".data, 3⟩, ⟨"b/c.txt".data, 7⟩] ("dest".data) false).error = none ∧
      (unzip [⟨"a.txt".data, 3⟩, ⟨"b/c.txt".data, 7⟩] ("dest".data) false).events =
        [ZEvent.print (progressBar 0), ZEvent.extract ("dest/a.txt".data),
          ZEvent.print (progressBar 15), ZEvent.extract ("dest/b/c.txt".data),
          ZEvent.print clearLine] := by
  have h := C4_amended [⟨"a.txt".data, 3⟩, ⟨"b/c.txt".data, 7⟩] ("dest".data) false (by decide)
  exact ⟨h.1, by rw [h.2.1]; rfl⟩

/-- Claim C5, counterexample.  The claim says each operation emits the
eighty-space clearing line on completion, but the downloader's
clearing print sits inside the branch taken only when a content-length
header is present: on a response without the header `dll_file`
completes normally having printed nothing at all. -/
theorem C5_counterexample :
    (dll_file (Except.ok respNoLength) ("f.bin".data)).result = Except.ok ("f.bin".data) ∧
      printed (dll_file (Except.ok respNoLength) ("f.bin".data)).events = [] :=
  ⟨rfl, rfl⟩

/-- Claim C5, amended.  Every progress line either operation prints is
the bracketed fifty-column bar of the spec — equal signs for the done
part, spaces for the rest, carriage return and no newline — with the
done count the truncated quotient of fifty times the transferred bytes
by the total; `unzip` always ends by printing the eighty-space
clearing line, while `dll_file` prints it exactly when a total size
was advertised, and prints nothing at all otherwise. -/
theorem C5_amended (resp : Response) (p : List Char) (entries : List ZipEntry)
    (ep : List Char) (pathExists : Bool)
    (hT : ∀ T, resp.contentLength = some T → 0 < T)
    (hz : 0 < (entries.map ZipEntry.file_size).sum) :
    (∀ T, resp.contentLength = some T →
      printed (dll_file (Except.ok resp) p).events =
        ((prefixTotals 0 resp.chunks).map fun s => specProgressLine (50 * s / T)) ++
          [specClearLine]) ∧
    (resp.contentLength = none → printed (dll_file (Except.ok resp) p).events = []) ∧
    printedZ (unzip entries ep pathExists).events =
      ((runningSizes 0 entries).map fun s =>
          specProgressLine (50 * s / (entries.map ZipEntry.file_size).sum)) ++
        [specClearLine] := by
  refine ⟨?_, ?_, ?_⟩
  · intro T hcl
    have hne := Nat.pos_iff_ne_zero.mp (hT T hcl)
    obtain ⟨st, cl, chunks⟩ := resp
    cases hcl
    have he := dllLoop_err hne chunks 0
    simp only [dll_file, he]
    rw [printed_append, dllLoop_printed hne chunks 0]
    simp [printed, progressBar_eq_spec, clearLine_eq_spec]
  · intro hcl
    obtain ⟨st, cl, chunks⟩ := resp
    cases hcl
    rfl
  · have hne := Nat.pos_iff_ne_zero.mp hz
    have he := unzipLoop_err hne ep entries 0
    simp only [unzip, he]
    rw [printedZ_append, unzipLoop_printed hne ep entries 0]
    simp [printedZ, progressBar_eq_spec, clearLine_eq_spec]

/-- Witness for the amended claim C5: the ten-byte download delivered
as two five-byte chunks prints the half-full then the full bar and
clears the line; a one-member archive prints the empty bar and clears
the line. -/
theorem C5_amended_witness :
    printed (dll_file (Except.ok respTenBytes) ("f.bin".data)).events =
        [specProgressLine 25, specProgressLine 50, specClearLine] ∧
      printedZ (unzip [⟨"a.txt".data, 3⟩] ("dest".data) false).events =
        [specProgressLine 0, specClearLine] := by
  have h := C5_amended respTenBytes ("f.bin".data) [⟨"a.txt".data, 3⟩] ("dest".data) false
    (by intro T hT; cases hT; decide) (by decide)
  constructor
  · rw [h.1 10 rfl]; rfl
  · rw [h.2.2]; rfl

/-- Claim C6.  For a download whose source advertises a positive total
size against which the delivered body fits (the streaming client stops
at the advertised length), the successive bars `dll_file` emits carry
done counts that never decrease, and each stays within the fifty
columns of the bar — the corresponding percentage, two points per
column, never exceeds one hundred. -/
theorem C6_progress_monotone (resp : Response) (p : List Char) (T : Nat)
    (hcl : resp.contentLength = some T) (hT : 0 < T)
    (hsum : (resp.chunks.map List.length).sum ≤ T) :
    ∃ ds : List Nat,
      printed (dll_file (Except.ok resp) p).events = (ds.map progressBar) ++ [clearLine] ∧
        List.Chain' (· ≤ ·) ds ∧ ∀ d ∈ ds, d ≤ 50 ∧ 2 * d ≤ 100 := by
  obtain ⟨st, cl, chunks⟩ := resp
  cases hcl
  have hne := Nat.pos_iff_ne_zero.mp hT
  refine ⟨(prefixTotals 0 chunks).map fun s => 50 * s / T, ?_, ?_, ?_⟩
  · have he := dllLoop_err hne chunks 0
    simp only [dll_file, he]
    rw [printed_append, dllLoop_printed hne chunks 0]
    simp [printed, List.map_map, Function.comp]
  · exact List.chain'_map_of_chain' _
      (fun a b hab => Nat.div_le_div_right (Nat.mul_le_mul_left _ hab))
      (prefixTotals_chain' chunks 0)
  · intro d hd
    rcases List.mem_map.mp hd with ⟨s, hs, rfl⟩
    have h1 : s ≤ T := le_trans (by simpa using prefixTotals_le chunks 0 s hs) hsum
    have h2 : 50 * s / T ≤ 50 := by
      calc 50 * s / T ≤ 50 * T / T := Nat.div_le_div_right (Nat.mul_le_mul_left _ h1)
        _ = 50 := by rw [Nat.mul_comm]; exact Nat.mul_div_cancel_left 50 hT
    omega

/-- Witness for claim C6 at the ten-byte two-chunk download. -/
theorem C6_progress_monotone_witness :
    ∃ ds : List Nat,
      printed (dll_file (Except.ok respTenBytes2) ("f.bin".data)).events =
          (ds.map progressBar) ++ [clearLine] ∧
        List.Chain' (· ≤ ·) ds ∧ ∀ d ∈ ds, d ≤ 50 ∧ 2 * d ≤ 100 :=
  C6_progress_monotone respTenBytes2 ("f.bin".data) 10 rfl (by decide) (by decide)

/-- Claim C7.  On a path whose extension is not the animated-image
one, `check_shape` compares the shape of the fully decoded image (when
decoding succeeds) with the expected shape; on an animated-image path
it compares the first frame of the multi-frame reader with any channel
beyond the third dropped; in both cases a mismatch exits the process
with status 1 — a non-zero status — and a match returns normally. -/
theorem C7_check_shape_dispatch (path : List Char) (img : ImageData) (shape : Shape) :
    (splitextExt path ≠ (".gif".data) → ∀ s, img.decodeShape = some s →
      (check_shape path img shape).result =
        (if s = shape then Except.ok () else Except.error 1)) ∧
    (splitextExt path = (".gif".data) →
      (check_shape path img shape).result =
        (if sliceChannels img.gifFirstFrame = shape then Except.ok () else Except.error 1)) := by
  constructor
  · intro hext s hs
    simp only [check_shape, read_image, hs, if_pos hext]
    exact checkAgainst_result s shape
  · intro hext
    rw [check_shape, hext, if_neg (not_not_intro rfl)]
    exact checkAgainst_result _ shape

/-- Witness for claim C7: a 256-square image against the 512-square
expectation exits with status 1, and an animated image whose first
frame is 512 by 512 with an alpha channel passes after the channel
drop. -/
theorem C7_check_shape_dispatch_witness :
    (check_shape ("img.png".data) { decodeShape := some (256, 256, 3), gifFirstFrame := (9, 9, 9) }
        (512, 512, 3)).result = Except.error 1 ∧
      (check_shape ("anim.gif".data) { decodeShape := none, gifFirstFrame := (512, 512, 4) }
        (512, 512, 3)).result = Except.ok () := by
  constructor
  · rw [(C7_check_shape_dispatch ("img.png".data)
        { decodeShape := some (256, 256, 3), gifFirstFrame := (9, 9, 9) } (512, 512, 3)).1
      (by decide) (256, 256, 3) rfl]
    decide
  · rw [(C7_check_shape_dispatch ("anim.gif".data)
        { decodeShape := none, gifFirstFrame := (512, 512, 4) } (512, 512, 3)).2 (by decide)]
    decide

/-- Claim C8.  When the bytes at the path do not decode as an image,
`read_image` logs the invalid-image message naming the path and
terminates the process with exit status 1 — a non-zero status, an exit
rather than a return or an exception surfaced to the caller. -/
theorem C8_read_image_exit (path : List Char) (img : ImageData)
    (h : img.decodeShape = none) :
    read_image path img =
      { logs := [path ++ (" file is not valid image".data)], result := Except.error 1 } ∧
      (1 : Nat) ≠ 0 := by
  constructor
  · simp only [read_image, h]
  · decide

/-- Witness for claim C8 at a concrete undecodable file. -/
theorem C8_read_image_exit_witness :
    read_image ("bad.png".data) { decodeShape := none, gifFirstFrame := (0, 0, 0) } =
      { logs := [("bad.png".data) ++ (" file is not valid image".data)],
        result := Except.error 1 } ∧ (1 : Nat) ≠ 0 :=
  C8_read_image_exit ("bad.png".data) { decodeShape := none, gifFirstFrame := (0, 0, 0) } rfl

/-- Claim C9.  On a non-empty archive all of whose members have
uncompressed size zero the summed total is zero, so the first
iteration of the member loop raises the division-by-zero while
computing the progress value: the call aborts with nothing printed and
nothing extracted. -/
theorem C9_zero_total_archive (entries : List ZipEntry) (p : List Char) (pathExists : Bool)
    (hne : entries ≠ []) (hz : ∀ e ∈ entries, e.file_size = 0) :
    (unzip entries p pathExists).error = some PyErr.zeroDivision ∧
      (unzip entries p pathExists).events = [] := by
  have htot : (entries.map ZipEntry.file_size).sum = 0 :=
    List.sum_eq_zero fun x hx => by
      rcases List.mem_map.mp hx with ⟨e, he, rfl⟩
      exact hz e he
  cases entries with
  | nil => exact absurd rfl hne
  | cons e rest =>
    refine ⟨?_, ?_⟩ <;>
    · simp only [unzip]
      rw [htot]
      rfl

/-- Witness for claim C9: the archive with one zero-byte member
raises the division-by-zero before extracting it. -/
theorem C9_zero_total_archive_witness :
    (unzip [⟨"a.txt".data, 0⟩] ("out".data) false).error = some PyErr.zeroDivision ∧
      (unzip [⟨"a.txt".data, 0⟩] ("out".data) false).events = [] :=
  C9_zero_total_archive [⟨"a.txt".data, 0⟩] ("out".data) false (by decide) (by decide)

/-- Claim C10.  The allow-list holds the portable pixmap extension
without its leading dot while the extension the splitter computes
carries the dot (or is empty, when the final component is all dots),
so for every path ending in the dotted portable pixmap extension —
whatever precedes it and whatever the written file would have looked
like — `write_image` logs the invalid-extension message naming the
path and exits the process with status 1. -/
theorem C10_ppm_rejected (pre : List Char) (writtenValid : Bool) :
    write_image (pre ++ (".ppm".data)) writtenValid =
      { logs := [(pre ++ (".ppm".data)) ++ (" invalid extension format.".data)],
        result := Except.error 1 } := by
  unfold write_image
  rcases splitextExt_append_ppm pre with h | h <;> rw [h, if_pos (by decide)]

end DreamPower
